import Mathlib

/-!
Verification of the rhiza-workflow-template registration core.

The development embeds, as Lean functions, the environment-variable
resolver and state loader found in scripts/register.ts, together with
the definition model, step-graph validator and diff/sync engine that the
registration scripts delegate to (those parts are modelled from the
specification, since only their callers live in this repository).
-/

namespace Rhiza

/-- A JSON-like tree: string, number, boolean, null, ordered sequence,
or key-to-value mapping (an ordered association list, mirroring a
JavaScript object's enumeration order). -/
inductive Json where
  | str (s : String)
  | num (n : Int)
  | bool (b : Bool)
  | null
  | arr (xs : List Json)
  | obj (kvs : List (String × Json))

/-- The process environment: a partial map from variable names to values.
An absent variable is `none`; a set-but-empty variable is `some ""`. -/
def Env : Type := String → Option String

/-- The JavaScript test `s.startsWith('$')`: true exactly when the first
character is a dollar sign. -/
def startsWithDollar (s : String) : Bool :=
  match s.data with
  | [] => false
  | c :: _ => c = '$'

/-- The JavaScript expression `s.slice(1)`: the string without its first
character (the dollar sign, at the single call sites). -/
def dropFirst (s : String) : String := String.mk (s.data.drop 1)

/-- Key substitution from `substituteEnvVars` in scripts/register.ts:
a mapping key starting with a dollar sign is replaced by the environment
value when that value is present (nullish coalescing, so an empty string
still substitutes); otherwise the key is kept unchanged. -/
def resolveKey (env : Env) (k : String) : String :=
  if startsWithDollar k then (env (dropFirst k)).getD k else k

/-- JavaScript object assignment `result[newKey] = v`: if the key is
already present its value is updated in place, otherwise the pair is
appended at the end. -/
def upsert (k : String) (v : Json) : List (String × Json) → List (String × Json)
  | [] => [(k, v)]
  | (k', v') :: rest => if k' = k then (k, v) :: rest else (k', v') :: upsert k v rest

mutual

/-- Embedding of `substituteEnvVars` from scripts/register.ts: a string
value starting with a dollar sign is replaced by the environment value
for the name after the dollar sign, failing when that value is absent or
empty (the JavaScript falsiness check); arrays map element-wise; objects
are rebuilt entry by entry with key substitution; other scalars pass
through unchanged. -/
def substituteEnvVars (env : Env) : Json → Except String Json
  | .str s =>
    if startsWithDollar s then
      let envVar := dropFirst s
      match env envVar with
      | some v =>
        if v = "" then .error ("Environment variable " ++ envVar ++ " is not set")
        else .ok (.str v)
      | none => .error ("Environment variable " ++ envVar ++ " is not set")
    else .ok (.str s)
  | .num n => .ok (.num n)
  | .bool b => .ok (.bool b)
  | .null => .ok .null
  | .arr xs => do
    let ys ← substList env xs
    return .arr ys
  | .obj kvs => do
    let kvs' ← substObj env [] kvs
    return .obj kvs'

/-- Element-wise substitution over an array, aborting at the first failure
(the semantics of `obj.map(substituteEnvVars)` under thrown exceptions). -/
def substList (env : Env) : List Json → Except String (List Json)
  | [] => .ok []
  | x :: xs => do
    let y ← substituteEnvVars env x
    let ys ← substList env xs
    return y :: ys

/-- Entry-wise substitution over an object, accumulating the rebuilt
object in enumeration order via JavaScript assignment semantics. -/
def substObj (env : Env) (acc : List (String × Json)) :
    List (String × Json) → Except String (List (String × Json))
  | [] => .ok acc
  | (k, v) :: rest => do
    let v' ← substituteEnvVars env v
    substObj env (upsert (resolveKey env k) v' acc) rest

end

/-- Witness inside a tree of a string value that begins with a dollar
sign whose referenced environment entry is absent: exactly the situation
in which the resolver's value branch must fail. -/
inductive HasMissingValueRef (env : Env) : Json → Prop where
  | str (s : String) : startsWithDollar s = true → env (dropFirst s) = none →
      HasMissingValueRef env (.str s)
  | arr (x : Json) (xs : List Json) : x ∈ xs → HasMissingValueRef env x →
      HasMissingValueRef env (.arr xs)
  | obj (k : String) (v : Json) (kvs : List (String × Json)) : (k, v) ∈ kvs →
      HasMissingValueRef env v → HasMissingValueRef env (.obj kvs)

/-- The observable condition of the persisted state file when it is read:
missing altogether, present but unparseable, or parsing to a JSON value. -/
inductive StoreContent where
  | missing
  | malformed
  | valid (state : Json)

/-- Embedding of `loadState` from scripts/register.ts: the read and the
parse run inside one try/catch whose handler returns the empty object,
so a missing file and a malformed file both yield the empty state. -/
def loadState : StoreContent → Json
  | .missing => .obj []
  | .malformed => .obj []
  | .valid s => s

/-- The post-completion routing of a step: exactly four shapes. -/
inductive Handoff where
  | pass (target : String)
  | scatter (target : String)
  | gather (target : String)
  | done
deriving DecidableEq

/-- One named node of the workflow graph. -/
structure Step where
  worker : String
  handoff : Handoff
deriving DecidableEq

/-- A resolved workflow definition: label, optional description, version,
entry step name, and the flow mapping step names to steps. -/
structure WorkflowDefinition where
  label : String
  description : Option String
  version : String
  entry : String
  flow : List (String × Step)
deriving DecidableEq

/-- The step name a handoff routes to, when it routes anywhere. -/
def handoffTarget : Handoff → Option String
  | .pass t => some t
  | .scatter t => some t
  | .gather t => some t
  | .done => none

/-- The step names of a definition's flow. -/
def flowKeys (d : WorkflowDefinition) : List String := d.flow.map Prod.fst

/-- Modelled from the spec: the per-step half of the Step Graph Validator
(the validator itself lives in the external registration module; only its
caller is under src/). Each pass/scatter/gather target must be a key of
the flow; done needs no check; the first dangling reference fails with a
DefinitionError naming the offending step and the reference. -/
def validateSteps (keys : List String) : List (String × Step) → Except String Unit
  | [] => .ok ()
  | (name, st) :: rest =>
    match handoffTarget st.handoff with
    | none => validateSteps keys rest
    | some t =>
      if t ∈ keys then validateSteps keys rest
      else .error ("DefinitionError: step " ++ name ++ " hands off to missing step " ++ t)

/-- Modelled from the spec: the Step Graph Validator. The entry step must
be a key of the flow, and every step's handoff target must be as well. -/
def validateDefinition (d : WorkflowDefinition) : Except String Unit :=
  if d.entry ∈ flowKeys d then validateSteps (flowKeys d) d.flow
  else .error ("DefinitionError: entry step " ++ d.entry ++ " not found in flow")

/-- The registration state persisted per workflow name and network:
remote identifiers plus the fields needed to diff a later definition. -/
structure RegistrationState where
  rhiza_id : String
  collection_id : String
  version : String
  label : String
  flow : List (String × Step)
deriving DecidableEq

/-- One field-level difference (spec field names from/to are spelled
fromVal/toVal because from is reserved in Lean). -/
structure FieldChange where
  field : String
  fromVal : Option String
  toVal : String
deriving DecidableEq

/-- Rendering of a handoff for field-change reporting. -/
def handoffString : Handoff → String
  | .pass t => "pass " ++ t
  | .scatter t => "scatter " ++ t
  | .gather t => "gather " ++ t
  | .done => "done"

/-- Rendering of a step for field-change reporting. -/
def stepString (s : Step) : String := s.worker ++ " then " ++ handoffString s.handoff

/-- The step stored under a name in a flow, if any. -/
def lookupStep (name : String) (f : List (String × Step)) : Option Step :=
  (f.find? (fun p => p.1 == name)).map Prod.snd

/-- Lexicographic order on character lists (kept structural so that it
evaluates inside the kernel). -/
def charListLe : List Char → List Char → Bool
  | [], _ => true
  | _ :: _, [] => false
  | c :: cs, d :: ds => if c < d then true else if d < c then false else charListLe cs ds

/-- Lexicographic order on step names. -/
def nameLe (a b : String) : Bool := charListLe a.data b.data

/-- Insertion of a name into an already sorted list of names. -/
def insertSorted (n : String) : List String → List String
  | [] => [n]
  | m :: rest => if nameLe n m then n :: m :: rest else m :: insertSorted n rest

/-- Insertion sort on step names (kept structural so it evaluates). -/
def sortNames : List String → List String
  | [] => []
  | n :: rest => insertSorted n (sortNames rest)

/-- The step names mentioned by either flow, deduplicated, in step-name
order. -/
def stepNames (newF oldF : List (String × Step)) : List String :=
  sortNames (((newF.map Prod.fst) ++ (oldF.map Prod.fst)).dedup)

/-- Modelled from the spec: per-step flow changes in step-name order. -/
def flowDiff (newF oldF : List (String × Step)) : List FieldChange :=
  (stepNames newF oldF).filterMap (fun n =>
    if lookupStep n newF = lookupStep n oldF then none
    else some ⟨"flow." ++ n, (lookupStep n oldF).map stepString,
      ((lookupStep n newF).map stepString).getD "(removed)"⟩)

/-- Modelled from the spec: the Diff & Sync Engine's field-level diff over
the comparable fields label, version and flow, in stable order (label,
version, then per-step flow changes); description is deliberately not
compared. -/
def diffChanges (cfg : WorkflowDefinition) (p : RegistrationState) : List FieldChange :=
  (if cfg.label = p.label then [] else [⟨"label", some p.label, cfg.label⟩]) ++
    (if cfg.version = p.version then [] else [⟨"version", some p.version, cfg.version⟩]) ++
    flowDiff cfg.flow p.flow

/-- The sync result record as the script sees it: an action tag, optional
changes, and the new registration state when applying (absent in dry-run
results, which is what `isDryRunResult` probes with its in-check). -/
structure SyncResult where
  action : String
  changes : Option (List FieldChange)
  state : Option RegistrationState
deriving DecidableEq

/-- Embedding of `isDryRunResult` from scripts/register.ts: the result is
a dry-run result when its action is would_create or would_update, or when
it is unchanged without a state payload. -/
def isDryRunResult (r : SyncResult) : Bool :=
  r.action == "would_create" || r.action == "would_update" ||
    (r.action == "unchanged" && r.state.isNone)

/-- A call across the remote registration boundary. -/
inductive RemoteCall where
  | createCall (cfg : WorkflowDefinition)
  | updateCall (rhizaId : String) (cfg : WorkflowDefinition)
deriving DecidableEq

/-- Modelled from the spec: the Diff & Sync Engine `decide` combined with
the remote calls the orchestrator issues for it (syncRhiza lives in the
external registration module; only its caller is under src/). Absent
prior state means create (or would_create); present prior state is
diffed, yielding unchanged on zero differences and update (or
would_update) otherwise. Dry-run computes the identical decision but
performs no remote call; fresh remote identifiers are supplied by the
collaborator and threaded in as `freshIds`. -/
def syncRhiza (cfg : WorkflowDefinition) (prior : Option RegistrationState)
    (dryRun : Bool) (freshIds : String × String) : SyncResult × List RemoteCall :=
  match prior with
  | none =>
    if dryRun then (⟨"would_create", none, none⟩, [])
    else
      let st : RegistrationState := ⟨freshIds.1, freshIds.2, cfg.version, cfg.label, cfg.flow⟩
      (⟨"created", none, some st⟩, [.createCall cfg])
  | some p =>
    let changes := diffChanges cfg p
    if changes.isEmpty then
      if dryRun then (⟨"unchanged", none, none⟩, [])
      else (⟨"unchanged", none, some p⟩, [])
    else if dryRun then (⟨"would_update", some changes, none⟩, [])
    else
      let st : RegistrationState := ⟨p.rhiza_id, p.collection_id, cfg.version, cfg.label, cfg.flow⟩
      (⟨"updated", some changes, some st⟩, [.updateCall p.rhiza_id cfg])

/-- The orchestrator for one registration invocation over a resolved
definition: validate, then sync, then (mirroring main in
scripts/register.ts) return early on a dry-run result and write the state
store only when the applied action is not unchanged. Returns the sync
outcome, the state-store content after the invocation, and the remote
calls made. -/
def register (cfg : WorkflowDefinition) (stored : Option RegistrationState)
    (dryRun : Bool) (freshIds : String × String) :
    Except String SyncResult × Option RegistrationState × List RemoteCall :=
  match validateDefinition cfg with
  | .error e => (.error e, stored, [])
  | .ok () =>
    let rc := syncRhiza cfg stored dryRun freshIds
    if isDryRunResult rc.1 then (.ok rc.1, stored, rc.2)
    else if rc.1.action == "unchanged" then (.ok rc.1, stored, rc.2)
    else (.ok rc.1, rc.1.state, rc.2)

/-- A concrete environment used by the witnesses: VAR is set to b, EMPTY
is set but empty, A is set to a string that itself begins with a dollar
sign, and everything else is absent. -/
def envW : Env := fun n =>
  if n = "VAR" then some "b"
  else if n = "EMPTY" then some ""
  else if n = "A" then some "$B"
  else none

/-- A well-formed two-step chain used by the witnesses: s1 passes to s2,
s2 is terminal. -/
def cfgGoodW : WorkflowDefinition :=
  ⟨"Stamp Chain", some "demo", "1.0.0", "s1",
    [("s1", ⟨"klados-1", .pass "s2"⟩), ("s2", ⟨"klados-2", .done⟩)]⟩

/-- A definition with a dangling handoff reference used by the witnesses:
s1 passes to a step s2 that is not a key of the flow. -/
def cfgBadW : WorkflowDefinition :=
  ⟨"Stamp Chain", none, "1.0.0", "s1", [("s1", ⟨"klados-1", .pass "s2"⟩)]⟩

/-- The registration state the first run of the witnesses persists. -/
def stW : RegistrationState :=
  ⟨"rhiza-1", "coll-1", cfgGoodW.version, cfgGoodW.label, cfgGoodW.flow⟩

@[simp] theorem except_bind_ok (a : α) (f : α → Except String β) :
    (Except.ok a >>= f) = f a := rfl

@[simp] theorem except_bind_error (e : String) (f : α → Except String β) :
    ((Except.error e : Except String α) >>= f) = Except.error e := rfl

@[simp] theorem except_pure (a : α) : (pure a : Except String α) = Except.ok a := rfl

theorem subst_str_missing (env : Env) (s : String)
    (h1 : startsWithDollar s = true) (h2 : env (dropFirst s) = none) :
    substituteEnvVars env (Json.str s) =
      Except.error ("Environment variable " ++ dropFirst s ++ " is not set") := by
  simp [substituteEnvVars, h1, h2]

theorem subst_str_plain (env : Env) (s : String) (h1 : startsWithDollar s = false) :
    substituteEnvVars env (Json.str s) = Except.ok (Json.str s) := by
  simp [substituteEnvVars, h1]

theorem subst_obj_single (env : Env) (k : String) (j w : Json)
    (hw : substituteEnvVars env j = Except.ok w) :
    substituteEnvVars env (Json.obj [(k, j)]) =
      Except.ok (Json.obj [(resolveKey env k, w)]) := by
  simp [substituteEnvVars, substObj, hw, upsert]

theorem substList_error (env : Env) (x : Json) (e : String) :
    ∀ xs : List Json, x ∈ xs → substituteEnvVars env x = Except.error e →
      ∃ e', substList env xs = Except.error e' := by
  intro xs
  induction xs with
  | nil => intro h; exact absurd h (List.not_mem_nil _)
  | cons y ys ih =>
    intro hmem hx
    rcases List.mem_cons.mp hmem with rfl | htail
    · exact ⟨e, by simp [substList, hx]⟩
    · cases hsy : substituteEnvVars env y with
      | error e0 => exact ⟨e0, by simp [substList, hsy]⟩
      | ok w =>
        obtain ⟨e', he'⟩ := ih htail hx
        exact ⟨e', by simp [substList, hsy, he']⟩

theorem substObj_error (env : Env) (k : String) (v : Json) (e : String) :
    ∀ (kvs : List (String × Json)) (acc : List (String × Json)),
      (k, v) ∈ kvs → substituteEnvVars env v = Except.error e →
      ∃ e', substObj env acc kvs = Except.error e' := by
  intro kvs
  induction kvs with
  | nil => intro acc h; exact absurd h (List.not_mem_nil _)
  | cons p rest ih =>
    intro acc hmem hv
    obtain ⟨k', v'⟩ := p
    rcases List.mem_cons.mp hmem with heq | htail
    · injection heq with hk hv'
      subst hk
      subst hv'
      exact ⟨e, by simp [substObj, hv]⟩
    · cases hsv : substituteEnvVars env v' with
      | error e0 => exact ⟨e0, by simp [substObj, hsv]⟩
      | ok w =>
        obtain ⟨e', he'⟩ := ih (upsert (resolveKey env k') w acc) htail hv
        exact ⟨e', by simp [substObj, hsv, he']⟩

theorem hasMissingValueRef_error (env : Env) (t : Json)
    (h : HasMissingValueRef env t) : ∃ e, substituteEnvVars env t = Except.error e := by
  induction h with
  | str s h1 h2 => exact ⟨_, subst_str_missing env s h1 h2⟩
  | arr x xs hmem _ ih =>
    obtain ⟨e, he⟩ := ih
    obtain ⟨e', he'⟩ := substList_error env x e xs hmem he
    exact ⟨e', by simp [substituteEnvVars, he']⟩
  | obj k v kvs hmem _ ih =>
    obtain ⟨e, he⟩ := ih
    obtain ⟨e', he'⟩ := substObj_error env k v e kvs [] hmem he
    exact ⟨e', by simp [substituteEnvVars, he']⟩

theorem validateSteps_ok_iff (keys : List String) (l : List (String × Step)) :
    validateSteps keys l = Except.ok () ↔
      ∀ p ∈ l, ∀ t, handoffTarget p.2.handoff = some t → t ∈ keys := by
  induction l with
  | nil => simp [validateSteps]
  | cons p rest ih =>
    obtain ⟨name, st⟩ := p
    cases hT : handoffTarget st.handoff with
    | none => simp [validateSteps, hT, ih]
    | some t =>
      by_cases hmem : t ∈ keys
      · simp [validateSteps, hT, hmem, ih]
      · refine iff_of_false (by simp [validateSteps, hT, hmem]) ?_
        intro hall
        exact hmem (hall (name, st) (List.mem_cons_self _ _) t hT)

theorem validateDefinition_ok_iff (d : WorkflowDefinition) :
    validateDefinition d = Except.ok () ↔
      (d.entry ∈ flowKeys d ∧
        ∀ p ∈ d.flow, ∀ t, handoffTarget p.2.handoff = some t → t ∈ flowKeys d) := by
  by_cases he : d.entry ∈ flowKeys d
  · simp [validateDefinition, he, validateSteps_ok_iff]
  · simp [validateDefinition, he]

theorem flowDiff_self (f : List (String × Step)) : flowDiff f f = [] := by
  unfold flowDiff
  induction stepNames f f with
  | nil => rfl
  | cons n ns ih => simp [List.filterMap_cons, ih]

theorem diffChanges_self (cfg : WorkflowDefinition) (a b : String) :
    diffChanges cfg ⟨a, b, cfg.version, cfg.label, cfg.flow⟩ = [] := by
  simp [diffChanges, flowDiff_self]

theorem register_create (cfg : WorkflowDefinition) (ids : String × String)
    (h : validateDefinition cfg = Except.ok ()) :
    register cfg none false ids =
      (Except.ok ⟨"created", none, some ⟨ids.1, ids.2, cfg.version, cfg.label, cfg.flow⟩⟩,
        some ⟨ids.1, ids.2, cfg.version, cfg.label, cfg.flow⟩, [.createCall cfg]) := by
  simp [register, h, syncRhiza, isDryRunResult]

theorem register_unchanged (cfg : WorkflowDefinition) (p : RegistrationState)
    (ids : String × String) (h : validateDefinition cfg = Except.ok ())
    (hd : diffChanges cfg p = []) :
    register cfg (some p) false ids =
      (Except.ok ⟨"unchanged", none, some p⟩, some p, []) := by
  simp [register, h, syncRhiza, hd, isDryRunResult]

theorem register_updated (cfg : WorkflowDefinition) (p : RegistrationState)
    (ids : String × String) (h : validateDefinition cfg = Except.ok ())
    (hd : diffChanges cfg p ≠ []) :
    register cfg (some p) false ids =
      (Except.ok ⟨"updated", some (diffChanges cfg p),
          some ⟨p.rhiza_id, p.collection_id, cfg.version, cfg.label, cfg.flow⟩⟩,
        some ⟨p.rhiza_id, p.collection_id, cfg.version, cfg.label, cfg.flow⟩,
        [.updateCall p.rhiza_id cfg]) := by
  simp [register, h, syncRhiza, hd, isDryRunResult]

/-- Claim C1: a string value beginning with a dollar sign whose referenced
environment entry is absent makes the resolver fail with an error naming
the missing variable; a string not beginning with a dollar sign is
returned unchanged; and such a missing reference anywhere in the tree
aborts the entire resolution with an error, never an ok result. -/
theorem C1_missing_value_aborts (env : Env) :
    (∀ s, startsWithDollar s = true → env (dropFirst s) = none →
      substituteEnvVars env (Json.str s) =
        Except.error ("Environment variable " ++ dropFirst s ++ " is not set")) ∧
    (∀ s, startsWithDollar s = false →
      substituteEnvVars env (Json.str s) = Except.ok (Json.str s)) ∧
    (∀ t, HasMissingValueRef env t → ∃ e, substituteEnvVars env t = Except.error e) :=
  ⟨fun s h1 h2 => subst_str_missing env s h1 h2,
   fun s h1 => subst_str_plain env s h1,
   fun t h => hasMissingValueRef_error env t h⟩

/-- Witness for claim C1 at concrete inputs. -/
theorem C1_missing_value_aborts_witness :
    substituteEnvVars envW (Json.str "$MISSING") =
      Except.error "Environment variable MISSING is not set" ∧
    substituteEnvVars envW (Json.str "plain") = Except.ok (Json.str "plain") ∧
    ∃ e, substituteEnvVars envW (Json.arr [Json.num 1, Json.str "$MISSING"]) =
      Except.error e :=
  ⟨(C1_missing_value_aborts envW).1 "$MISSING" rfl rfl,
   (C1_missing_value_aborts envW).2.1 "plain" rfl,
   (C1_missing_value_aborts envW).2.2 _
     (.arr (Json.str "$MISSING") _ (by simp) (.str "$MISSING" rfl rfl))⟩

/-- Claim C4: a mapping key beginning with a dollar sign is replaced by
the environment value when present; when the entry is absent the key is
left literally unchanged and resolution of the mapping succeeds, whereas
the very same absent reference as a string value fails the whole
resolution. -/
theorem C4_key_value_asymmetry (env : Env) (k : String)
    (hk : startsWithDollar k = true) :
    (∀ v, env (dropFirst k) = some v → resolveKey env k = v) ∧
    (env (dropFirst k) = none →
      resolveKey env k = k ∧
      (∀ j w, substituteEnvVars env j = Except.ok w →
        substituteEnvVars env (Json.obj [(k, j)]) =
          Except.ok (Json.obj [(k, w)])) ∧
      ∃ e, substituteEnvVars env (Json.str k) = Except.error e) := by
  constructor
  · intro v hv
    simp [resolveKey, hk, hv]
  · intro habs
    have hrk : resolveKey env k = k := by simp [resolveKey, hk, habs]
    refine ⟨hrk, fun j w hw => ?_, ⟨_, subst_str_missing env k hk habs⟩⟩
    have h := subst_obj_single env k j w hw
    rwa [hrk] at h

/-- Witness for claim C4 at concrete inputs. -/
theorem C4_key_value_asymmetry_witness :
    resolveKey envW "$VAR" = "b" ∧
    resolveKey envW "$MISSING" = "$MISSING" ∧
    substituteEnvVars envW (Json.obj [("$MISSING", Json.num 7)]) =
      Except.ok (Json.obj [("$MISSING", Json.num 7)]) ∧
    ∃ e, substituteEnvVars envW (Json.str "$MISSING") = Except.error e :=
  ⟨(C4_key_value_asymmetry envW "$VAR" rfl).1 "b" rfl,
   ((C4_key_value_asymmetry envW "$MISSING" rfl).2 rfl).1,
   ((C4_key_value_asymmetry envW "$MISSING" rfl).2 rfl).2.1 (Json.num 7) (Json.num 7) rfl,
   ((C4_key_value_asymmetry envW "$MISSING" rfl).2 rfl).2.2⟩

/-- Claim C8: an environment entry set to the empty string still fails
substitution of a dollar-string value (the check is JavaScript falsiness,
not absence), while the same empty entry under a dollar-key is
substituted, replacing the key with the empty string. -/
theorem C8_empty_value_falsiness (env : Env) (s k : String)
    (hs : startsWithDollar s = true) (hse : env (dropFirst s) = some "")
    (hk : startsWithDollar k = true) (hke : env (dropFirst k) = some "") :
    substituteEnvVars env (Json.str s) =
      Except.error ("Environment variable " ++ dropFirst s ++ " is not set") ∧
    resolveKey env k = "" ∧
    (∀ j w, substituteEnvVars env j = Except.ok w →
      substituteEnvVars env (Json.obj [(k, j)]) =
        Except.ok (Json.obj [("", w)])) := by
  have hrk : resolveKey env k = "" := by simp [resolveKey, hk, hke]
  refine ⟨by simp [substituteEnvVars, hs, hse], hrk, fun j w hw => ?_⟩
  have h := subst_obj_single env k j w hw
  rwa [hrk] at h

/-- Witness for claim C8 at concrete inputs. -/
theorem C8_empty_value_falsiness_witness :
    substituteEnvVars envW (Json.str "$EMPTY") =
      Except.error "Environment variable EMPTY is not set" ∧
    resolveKey envW "$EMPTY" = "" ∧
    substituteEnvVars envW (Json.obj [("$EMPTY", Json.bool true)]) =
      Except.ok (Json.obj [("", Json.bool true)]) :=
  ⟨(C8_empty_value_falsiness envW "$EMPTY" "$EMPTY" rfl rfl rfl rfl).1,
   (C8_empty_value_falsiness envW "$EMPTY" "$EMPTY" rfl rfl rfl rfl).2.1,
   (C8_empty_value_falsiness envW "$EMPTY" "$EMPTY" rfl rfl rfl rfl).2.2
     (Json.bool true) (Json.bool true) rfl⟩

/-- Claim C9: two distinct mapping keys that resolve to the same name
collapse to one entry, the later-enumerated one winning, so the resolved
mapping has strictly fewer keys than the input mapping. -/
theorem C9_key_collision (env : Env) (k1 k2 : String) (v1 v2 w1 w2 : Json)
    (hne : k1 ≠ k2) (hkey : resolveKey env k1 = resolveKey env k2)
    (h1 : substituteEnvVars env v1 = Except.ok w1)
    (h2 : substituteEnvVars env v2 = Except.ok w2) :
    substituteEnvVars env (Json.obj [(k1, v1), (k2, v2)]) =
      Except.ok (Json.obj [(resolveKey env k2, w2)]) ∧
    ([(resolveKey env k2, w2)] : List (String × Json)).length <
      ([(k1, v1), (k2, v2)] : List (String × Json)).length := by
  refine ⟨?_, by simp⟩
  simp [substituteEnvVars, substObj, h1, h2, upsert, hkey]

/-- Witness for claim C9 at concrete inputs: key VAR resolves to b, which
collides with the later literal key b. -/
theorem C9_key_collision_witness :
    substituteEnvVars envW (Json.obj [("$VAR", Json.num 1), ("b", Json.num 2)]) =
      Except.ok (Json.obj [("b", Json.num 2)]) ∧
    ([("b", Json.num 2)] : List (String × Json)).length <
      ([(("$VAR" : String), Json.num 1), (("b" : String), Json.num 2)] :
        List (String × Json)).length :=
  C9_key_collision envW "$VAR" "b" (Json.num 1) (Json.num 2) (Json.num 1) (Json.num 2)
    (by decide) rfl rfl rfl

/-- Claim C10: substitution is single-pass; the environment value for a
dollar-string is returned verbatim, whatever its content, so a value that
itself begins with a dollar sign is neither re-substituted nor a failure. -/
theorem C10_single_pass (env : Env) (s v : String)
    (hs : startsWithDollar s = true) (hv : env (dropFirst s) = some v)
    (hne : v ≠ "") :
    substituteEnvVars env (Json.str s) = Except.ok (Json.str v) := by
  simp [substituteEnvVars, hs, hv, hne]

/-- Witness for claim C10 at concrete inputs: A holds the literal which
references the absent variable B, and is returned verbatim. -/
theorem C10_single_pass_witness :
    substituteEnvVars envW (Json.str "$A") = Except.ok (Json.str "$B") ∧
    startsWithDollar "$B" = true ∧ envW (dropFirst "$B") = none :=
  ⟨C10_single_pass envW "$A" "$B" rfl rfl (by decide), rfl, rfl⟩

/-- Claim C2: validation succeeds exactly when the entry step and every
pass/scatter/gather handoff target are keys of the flow; and when
validation fails, the orchestrator surfaces that DefinitionError without
any remote call and without touching the state store. -/
theorem C2_validator_completeness (d : WorkflowDefinition) :
    (validateDefinition d = Except.ok () ↔
      (d.entry ∈ flowKeys d ∧
        ∀ p ∈ d.flow, ∀ t, handoffTarget p.2.handoff = some t → t ∈ flowKeys d)) ∧
    (∀ e stored dryRun freshIds, validateDefinition d = Except.error e →
      register d stored dryRun freshIds = (Except.error e, stored, [])) := by
  refine ⟨validateDefinition_ok_iff d, ?_⟩
  intro e stored dryRun freshIds he
  simp [register, he]

/-- Witness for claim C2 at concrete inputs: the dangling reference from
s1 to the missing s2 is rejected with no remote call, and the well-formed
two-step chain validates. -/
theorem C2_validator_completeness_witness :
    register cfgBadW none false ("r1", "c1") =
      (Except.error "DefinitionError: step s1 hands off to missing step s2", none, []) ∧
    validateDefinition cfgGoodW = Except.ok () := by
  constructor
  · exact (C2_validator_completeness cfgBadW).2 _ none false ("r1", "c1") rfl
  · refine (C2_validator_completeness cfgGoodW).1.mpr ⟨by decide, ?_⟩
    intro p hp t ht
    simp [cfgGoodW] at hp
    rcases hp with rfl | rfl
    · simp [handoffTarget] at ht
      subst ht
      decide
    · simp [handoffTarget] at ht

/-- Counterexample to claim C3: loadState maps a present-but-malformed
store to the empty state object, the very same result as a missing store,
instead of raising any error. -/
theorem C3_counterexample :
    loadState StoreContent.malformed = Json.obj [] ∧
    loadState StoreContent.malformed = loadState StoreContent.missing :=
  ⟨rfl, rfl⟩

/-- Claim C3 (amended): loadState treats every read failure alike —
missing store or malformed content both yield the empty state object,
so malformed state is treated as no prior registration; only valid
content is returned as parsed. -/
theorem C3_loadState_amended :
    (∀ c, (c = StoreContent.missing ∨ c = StoreContent.malformed) →
      loadState c = Json.obj []) ∧
    ∀ s, loadState (StoreContent.valid s) = s := by
  constructor
  · rintro c (rfl | rfl) <;> rfl
  · intro s
    rfl

/-- Witness for the amended claim C3 at a concrete input. -/
theorem C3_loadState_amended_witness :
    loadState StoreContent.malformed = Json.obj [] :=
  (C3_loadState_amended).1 StoreContent.malformed (Or.inr rfl)

/-- Claim C5: when a non-dry-run registration computes the outcome
unchanged, the state store keeps its prior value and no remote call is
made; the store differs from its prior value only after a created or
updated outcome. -/
theorem C5_unchanged_frame (cfg : WorkflowDefinition)
    (stored : Option RegistrationState) (freshIds : String × String)
    (res : SyncResult)
    (hres : (register cfg stored false freshIds).1 = Except.ok res) :
    (res.action = "unchanged" →
      (register cfg stored false freshIds).2.1 = stored ∧
      (register cfg stored false freshIds).2.2 = []) ∧
    ((register cfg stored false freshIds).2.1 ≠ stored →
      res.action = "created" ∨ res.action = "updated") := by
  cases hv : validateDefinition cfg with
  | error e => simp [register, hv] at hres
  | ok u =>
    cases u
    cases stored with
    | none =>
      simp [register_create cfg freshIds hv] at hres
      subst hres
      refine ⟨fun habs => by simp at habs, fun _ => Or.inl rfl⟩
    | some p =>
      by_cases hd : diffChanges cfg p = []
      · simp [register_unchanged cfg p freshIds hv hd] at hres
        subst hres
        refine ⟨fun _ => by simp [register_unchanged cfg p freshIds hv hd], ?_⟩
        intro hne
        exact (hne (by simp [register_unchanged cfg p freshIds hv hd])).elim
      · simp [register_updated cfg p freshIds hv hd] at hres
        subst hres
        refine ⟨fun habs => by simp at habs, fun _ => Or.inr rfl⟩

/-- Witness for claim C5 at concrete inputs: re-registering the identical
definition leaves the store and the call list untouched. -/
theorem C5_unchanged_frame_witness :
    ((⟨"unchanged", none, some stW⟩ : SyncResult).action = "unchanged" →
      (register cfgGoodW (some stW) false ("r2", "c2")).2.1 = some stW ∧
      (register cfgGoodW (some stW) false ("r2", "c2")).2.2 = []) ∧
    ((register cfgGoodW (some stW) false ("r2", "c2")).2.1 ≠ some stW →
      (⟨"unchanged", none, some stW⟩ : SyncResult).action = "created" ∨
      (⟨"unchanged", none, some stW⟩ : SyncResult).action = "updated") :=
  C5_unchanged_frame cfgGoodW (some stW) ("r2", "c2") ⟨"unchanged", none, some stW⟩ rfl

/-- Claim C6: a dry-run registration invocation never changes the state
store, whatever its outcome. -/
theorem C6_dry_run_purity (cfg : WorkflowDefinition)
    (stored : Option RegistrationState) (freshIds : String × String) :
    (register cfg stored true freshIds).2.1 = stored := by
  cases hv : validateDefinition cfg with
  | error e => simp [register, hv]
  | ok u =>
    cases u
    cases stored with
    | none => simp [register, hv, syncRhiza, isDryRunResult]
    | some p =>
      by_cases hd : diffChanges cfg p = [] <;>
        simp [register, hv, syncRhiza, hd, isDryRunResult]

/-- Claim C7: registering the same resolved definition twice against the
same key, with the second run reading the state the first run wrote,
yields created then unchanged. -/
theorem C7_idempotent_registration (cfg : WorkflowDefinition)
    (ids1 ids2 : String × String) (h : validateDefinition cfg = Except.ok ()) :
    ∃ st : RegistrationState,
      (register cfg none false ids1).1 = Except.ok ⟨"created", none, some st⟩ ∧
      (register cfg none false ids1).2.1 = some st ∧
      (register cfg (some st) false ids2).1 = Except.ok ⟨"unchanged", none, some st⟩ ∧
      (register cfg (some st) false ids2).2.1 = some st := by
  refine ⟨⟨ids1.1, ids1.2, cfg.version, cfg.label, cfg.flow⟩, ?_, ?_, ?_, ?_⟩
  · simp [register_create cfg ids1 h]
  · simp [register_create cfg ids1 h]
  · simp [register_unchanged cfg _ ids2 h (diffChanges_self cfg ids1.1 ids1.2)]
  · simp [register_unchanged cfg _ ids2 h (diffChanges_self cfg ids1.1 ids1.2)]

/-- Witness for claim C7 at concrete inputs. -/
theorem C7_idempotent_registration_witness :
    ∃ st : RegistrationState,
      (register cfgGoodW none false ("r1", "c1")).1 =
        Except.ok ⟨"created", none, some st⟩ ∧
      (register cfgGoodW none false ("r1", "c1")).2.1 = some st ∧
      (register cfgGoodW (some st) false ("r2", "c2")).1 =
        Except.ok ⟨"unchanged", none, some st⟩ ∧
      (register cfgGoodW (some st) false ("r2", "c2")).2.1 = some st :=
  C7_idempotent_registration cfgGoodW ("r1", "c1") ("r2", "c2") rfl

end Rhiza
